import Mathlib

/-!
Shallow embedding of the PulseSeer detection / demultiplexing / auto-gain
core (src/PulseSeer.py): pulse clustering, cycle-candidate search and
scoring, cycle selection, the lock/timeout state machine, the wavelength
demultiplexer buffers and the hysteretic auto-gain controller.

Conventions of the embedding:
* Python floats are idealised as exact rationals; the only irrational
  operation, numpy's standard deviation (a square root), is modelled over
  the reals via Real.sqrt, so quality scores live in ℝ.
* numpy reductions on an empty array (np.min / np.max) raise ValueError;
  a function that can reach such a call returns Option, with none standing
  for the raised exception.
* The MainWindow object is modelled by the record SeerState holding
  exactly the fields the core pipeline reads and writes.
-/

namespace PulseSeer

/-- The six wavelength identifiers (PulseSeer.py line 58, PARAMETERS =
["700nm", "800nm", "850nm", "900nm", "970nm", "1050nm"]), by position. -/
abbrev Wavelength := Fin 6

/-- Arithmetic mean, np.mean (0 on the empty list; the embedded paths
only average non-empty lists). -/
def qmean (l : List ℚ) : ℚ := l.sum / l.length

/-- Population variance; np.std of the list is its square root. -/
def qvar (l : List ℚ) : ℚ := qmean (l.map fun x => (x - qmean l) ^ 2)

/-- Minimum of a non-empty batch (Python min / np.min). -/
def listMin : List ℚ → ℚ
  | [] => 0
  | x :: xs => xs.foldl min x

/-- Maximum of a non-empty batch (Python max / np.max). -/
def listMax : List ℚ → ℚ
  | [] => 0
  | x :: xs => xs.foldl max x

/-- Python 3 round(): round half to even (banker's rounding). -/
def pyRound (q : ℚ) : ℤ :=
  if q - ⌊q⌋ = 1/2 then (if Even ⌊q⌋ then ⌊q⌋ else ⌊q⌋ + 1) else round q

/-- detect_cycle_in_batch, line 1559: VOLTAGE_THRESHOLD = 0.1 (100 mV). -/
def VOLTAGE_THRESHOLD : ℚ := 1/10

/-- detect_cycle_in_batch, line 1558: 1000.0 / 256.0 ms (~3.90625 ms). -/
def EXPECTED_CYCLE_DURATION_MS : ℚ := 1000 / 256

/-- MainWindow.__init__, line 348: self.LOCK_THRESHOLD = 2. -/
def LOCK_THRESHOLD : ℕ := 2

/-- auto_adjust_gain, line 2402: gain_values = [1, 2, 4, 8]. -/
def gain_values : List ℚ := [1, 2, 4, 8]

/-- The claim-relevant mutable fields of MainWindow.

* sample_buffer: per-wavelength pattern-based pulse history;
* continuous_sample_buffer: per-wavelength round-robin continuous history;
* no_pattern_deadline: the single-shot no_pattern_timer modelled as an
  absolute deadline (armed iff some); pattern_detection_active mirrors the
  flag of the same name;
* gain: self.adc.channel_gains[0], the current gain ladder value. -/
structure SeerState where
  sample_buffer : Wavelength → List ℚ
  continuous_sample_buffer : Wavelength → List ℚ
  continuous_wavelength_cycle : ℕ
  wavelength_cycle_count : ℕ
  consecutive_cycles : ℕ
  is_locked : Bool
  pattern_detection_active : Bool
  no_pattern_deadline : Option ℚ
  gain : ℚ
  cycle_timestamps : List ℚ

/-- auto_adjust_gain lines 2384-2389: scan gain_values for the current
gain value, first match wins, index 0 when the value is not in the ladder. -/
def gainIdx (g : ℚ) : ℕ :=
  if g = 1 then 0 else if g = 2 then 1 else if g = 4 then 2
  else if g = 8 then 3 else 0

/-- MainWindow.auto_adjust_gain (lines 2363-2434).  Steps the gain one rung
down when some |v| exceeds threshold_high, else one rung up when some |v|
is below threshold_low and the batch maximum |v| is within threshold_high;
any applied gain change also resets the continuous sample buffer of every
wavelength.  The set_gain hardware write is modelled as succeeding, and the
adc_type/channel guard of line 2371 as passing (ADS131M02, channel 0). -/
def auto_adjust_gain (st : SeerState) (voltage_batch : List ℚ)
    (threshold_low threshold_high : ℚ) : SeerState :=
  let current_gain_idx := gainIdx st.gain
  if voltage_batch.isEmpty then st
  else
    let max_voltage := listMax (voltage_batch.map fun v => |v|)
    if voltage_batch.any fun v => decide (threshold_high < |v|) then
      if 0 < current_gain_idx then
        { st with gain := gain_values.getD (current_gain_idx - 1) 1,
                  continuous_sample_buffer := fun _ => [] }
      else st
    else if (voltage_batch.any fun v => decide (|v| < threshold_low)) &&
            decide (max_voltage ≤ threshold_high) then
      if current_gain_idx < gain_values.length - 1 then
        { st with gain := gain_values.getD (current_gain_idx + 1) 1,
                  continuous_sample_buffer := fun _ => [] }
      else st
    else st

/-- One iteration of the cluster-grouping loop of detect_cycle_in_batch
(Step 3, lines 1632-1652): the accumulator is (finished clusters, current
cluster, in_pulse flag); a cluster is the list of its member sample
indices. -/
def clusterStep (acc : List (List ℕ) × List ℕ × Bool) (p : ℕ × ℚ) :
    List (List ℕ) × List ℕ × Bool :=
  let (done, cur, inPulse) := acc
  if VOLTAGE_THRESHOLD < p.2 then
    if inPulse then (done, cur ++ [p.1], true) else (done, [p.1], true)
  else
    if inPulse then
      (if cur.isEmpty then done else done ++ [cur], [], false)
    else (done, [], false)

/-- Pulse clusters of a batch: maximal runs of strictly-above-threshold
samples, including a trailing run that reaches the batch end
(lines 1632-1655). -/
def pulse_clusters (vs : List ℚ) : List (List ℕ) :=
  let r := vs.enum.foldl clusterStep ([], [], false)
  if r.2.2 && !r.2.1.isEmpty then r.1 ++ [r.2.1] else r.1

/-- Effective samples per second of a batch: (count / 20 ms) × 1000
(lines 1561-1564). -/
def actualSps (n : ℕ) : ℚ := ((n : ℚ) / 20) * 1000

/-- Cluster centre time in ms: mean member index / sps × 1000 (line 1668). -/
def cluster_center_time (n : ℕ) (c : List ℕ) : ℚ :=
  qmean (c.map fun i => (i : ℚ)) / actualSps n * 1000

/-- Cluster width in ms: (last index − first index) / sps × 1000
(line 1671). -/
def cluster_width (n : ℕ) (c : List ℕ) : ℚ :=
  (((c.getLastD 0 : ℕ) : ℚ) - ((c.headD 0 : ℕ) : ℚ)) / actualSps n * 1000

/-- Cluster mean voltage (line 1674). -/
def cluster_voltage (vs : List ℚ) (c : List ℕ) : ℚ :=
  qmean (c.map fun i => vs.getD i 0)

/-- Inter-pulse spacings: cycle_pulses[i] − cycle_pulses[i−1]
(lines 1704-1707). -/
def spacingsOf (pulses : List ℚ) : List ℚ :=
  (pulses.zip pulses.tail).map fun p => p.2 - p.1

/-- cycle_duration = last pulse time − first pulse time + mean width
(line 1700). -/
def cycleDuration (pulses widths : List ℚ) : ℚ :=
  pulses.getLastD 0 - pulses.headD 0 + qmean widths

/-- The validation criteria for one six-pulse window (lines 1712-1727):
duration in [2, 6] ms, mean width in [0.1, 0.5] ms, minimum and maximum
spacing each in [0.1, 2] ms, and exactly six pulses. -/
def windowValid (pulses widths : List ℚ) : Prop :=
  (2 ≤ cycleDuration pulses widths ∧ cycleDuration pulses widths ≤ 6) ∧
  (1/10 ≤ qmean widths ∧ qmean widths ≤ 1/2) ∧
  (1/10 ≤ listMin (spacingsOf pulses) ∧ listMin (spacingsOf pulses) ≤ 2 ∧
   1/10 ≤ listMax (spacingsOf pulses) ∧ listMax (spacingsOf pulses) ≤ 2) ∧
  pulses.length = 6

instance (pulses widths : List ℚ) : Decidable (windowValid pulses widths) := by
  unfold windowValid; infer_instance

/-- One valid six-pulse cycle candidate, as stored in the valid_cycles
dictionaries (lines 1755-1766): the window data in cluster order together
with the time-sorted copies. -/
structure ValidCycle where
  start_idx : ℕ
  pulses : List ℚ
  widths : List ℚ
  clusters : List (List ℕ)
  voltages : List ℚ
  sorted_pulse_times : List ℚ
  sorted_pulse_widths : List ℚ
  sorted_pulse_clusters : List (List ℕ)
  sorted_pulse_voltages : List ℚ
  deriving DecidableEq

/-- pulse_data.sort(key=time) (line 1743): Python's stable ascending sort,
realised as insertion sort on (time, width, cluster, voltage) quadruples. -/
def sortPulseData (l : List (ℚ × ℚ × List ℕ × ℚ)) : List (ℚ × ℚ × List ℕ × ℚ) :=
  l.insertionSort fun a b => a.1 ≤ b.1

/-- Build the stored candidate for a window (lines 1742-1766). -/
def mkValidCycle (s : ℕ) (cyclePulses cycleWidths : List ℚ)
    (cycleClusters : List (List ℕ)) (cycleVoltages : List ℚ) : ValidCycle :=
  let pd := sortPulseData
    (cyclePulses.zip (cycleWidths.zip (cycleClusters.zip cycleVoltages)))
  { start_idx := s
    pulses := cyclePulses
    widths := cycleWidths
    clusters := cycleClusters
    voltages := cycleVoltages
    sorted_pulse_times := pd.map fun p => p.1
    sorted_pulse_widths := pd.map fun p => p.2.1
    sorted_pulse_clusters := pd.map fun p => p.2.2.1
    sorted_pulse_voltages := pd.map fun p => p.2.2.2 }

/-- The valid six-pulse windows of a batch in window order: the candidate
loop of lines 1690-1781, before the final quality sort. -/
def validCyclesRaw (vs : List ℚ) : List ValidCycle :=
  let clusters := pulse_clusters vs
  let n := vs.length
  let times := clusters.map (cluster_center_time n)
  let widths := clusters.map (cluster_width n)
  let volts := clusters.map (cluster_voltage vs)
  (List.range (times.length + 1 - 6)).filterMap fun s =>
    if windowValid ((times.drop s).take 6) ((widths.drop s).take 6) then
      some (mkValidCycle s ((times.drop s).take 6) ((widths.drop s).take 6)
        ((clusters.drop s).take 6) ((volts.drop s).take 6))
    else none

/-- Quality score of a valid window (lines 1729-1740), over ℝ because
np.std is a square root: duration error against 1000/256 ms, width error
against 0.24 ms, and spacing consistency 1 − std/mean (0 when the mean
spacing is not positive), each clamped as in the source. -/
noncomputable def windowQuality (pulses widths : List ℚ) : ℝ :=
  let duration_error : ℝ :=
    |((cycleDuration pulses widths : ℚ) : ℝ) - ((EXPECTED_CYCLE_DURATION_MS : ℚ) : ℝ)| /
      ((EXPECTED_CYCLE_DURATION_MS : ℚ) : ℝ)
  let width_error : ℝ := |((qmean widths : ℚ) : ℝ) - 24/100| / (24/100)
  let spacing_consistency : ℝ :=
    max 0 (if 0 < qmean (spacingsOf pulses) then
      1 - Real.sqrt ((qvar (spacingsOf pulses) : ℚ) : ℝ) / ((qmean (spacingsOf pulses) : ℚ) : ℝ)
    else 0)
  max 0 (1 - (duration_error + width_error + (1 - spacing_consistency)) / 3)

/-- Quality of a stored candidate, from its window data (line 1762). -/
noncomputable def cycleQuality (c : ValidCycle) : ℝ := windowQuality c.pulses c.widths

/-- valid_cycles.sort(key=quality, reverse=True) (line 1784): Python's
stable descending sort, realised as insertion sort for the total preorder
"quality at least". -/
noncomputable def sortValidCycles (l : List ValidCycle) : List ValidCycle :=
  l.insertionSort fun a b => cycleQuality b ≤ cycleQuality a

/-- The result dictionary of detect_cycle_in_batch (lines 1571-1585 and
1793-1812).  stat_std is np.std of the whole batch, the square root of its
population variance; the sorted pulse fields default to [] when absent. -/
structure DetectionResult where
  detected : Bool
  score : ℝ
  quality : ℝ
  pulse_count : ℕ
  high_samples : ℕ
  pulse_width_ms : ℚ
  actual_sps : ℚ
  stat_mean : ℚ
  stat_std : ℝ
  stat_min : ℚ
  stat_max : ℚ
  sorted_pulse_times : List ℚ
  sorted_pulse_widths : List ℚ
  sorted_pulse_clusters : List (List ℕ)
  sorted_pulse_voltages : List ℚ
  all_valid_cycles : List ValidCycle
  total_valid_cycles : ℕ

/-- MainWindow.detect_cycle_in_batch (lines 1545-1835).  none models the
ValueError raised by np.min/np.max on an empty batch; otherwise the batch
statistics are always filled in, a too-short batch returns early with
detected = false, and the best valid cycle (if any) is promoted. -/
noncomputable def detect_cycle_in_batch (voltages : List ℚ) : Option DetectionResult :=
  if voltages.isEmpty then none
  else
    let n := voltages.length
    let sps := actualSps n
    let samples_per_cycle : ℤ := pyRound (EXPECTED_CYCLE_DURATION_MS * (sps / 1000))
    let base : DetectionResult :=
      { detected := false, score := 0, quality := 0, pulse_count := 0,
        high_samples := 0, pulse_width_ms := 0, actual_sps := sps,
        stat_mean := qmean voltages,
        stat_std := Real.sqrt ((qvar voltages : ℚ) : ℝ),
        stat_min := listMin voltages, stat_max := listMax voltages,
        sorted_pulse_times := [], sorted_pulse_widths := [],
        sorted_pulse_clusters := [], sorted_pulse_voltages := [],
        all_valid_cycles := [], total_valid_cycles := 0 }
    if (n : ℤ) < samples_per_cycle then some base
    else
      match sortValidCycles (validCyclesRaw voltages) with
      | [] => some base
      | best :: rest =>
        some { base with
          detected := true
          pulse_count := 6
          quality := cycleQuality best
          score := cycleQuality best
          pulse_width_ms := qmean best.sorted_pulse_widths
          high_samples := (voltages.filter fun v => decide (VOLTAGE_THRESHOLD < v)).length
          sorted_pulse_times := best.sorted_pulse_times
          sorted_pulse_widths := best.sorted_pulse_widths
          sorted_pulse_clusters := best.sorted_pulse_clusters
          sorted_pulse_voltages := best.sorted_pulse_voltages
          all_valid_cycles := best :: rest
          total_valid_cycles := (best :: rest).length }

/-- The per-pulse wavelength assignment of one processed cycle
(lines 1440-1450): for each position i of the zip of sorted times,
clusters and voltages with i < 6, append sorted voltage i divided by the
current gain to wavelength i's pattern-based buffer. -/
def assignPulses (buf : Wavelength → List ℚ) (cd : ValidCycle) (g : ℚ) :
    Wavelength → List ℚ :=
  fun w => if (w : ℕ) < min (min cd.sorted_pulse_times.length
      cd.sorted_pulse_clusters.length) cd.sorted_pulse_voltages.length then
    buf w ++ [cd.sorted_pulse_voltages.getD w 0 / g]
  else buf w

/-- Processing of one valid cycle inside the detected branch of
sample_data (lines 1436-1456), threading the state because the trailing
gain adjustment can change the gain used by the next cycle.  The second
component counts auto_adjust_gain invocations. -/
def processOneCycle (vs : List ℚ) (p : SeerState × ℕ) (cd : ValidCycle) :
    SeerState × ℕ :=
  let (st, calls) := p
  if cd.sorted_pulse_times.length = 6 ∧ cd.sorted_pulse_clusters.length = 6 then
    let st := { st with sample_buffer := assignPulses st.sample_buffer cd st.gain,
                        wavelength_cycle_count := st.wavelength_cycle_count + 1 }
    if cd.sorted_pulse_voltages.any fun v => decide (|v| < 1/10) then
      (auto_adjust_gain st vs (1/10) 1, calls + 1)
    else (st, calls)
  else (st, calls)

/-- Lines 1403-1408 of sample_data: bump the continuous cycling counter
and append the batch mean to the continuous buffer of
PARAMETERS[(counter − 1) mod 6]. -/
def contAppend (st : SeerState) (vs : List ℚ) : SeerState :=
  { st with
    continuous_wavelength_cycle := st.continuous_wavelength_cycle + 1
    continuous_sample_buffer := Function.update st.continuous_sample_buffer
      ⟨(st.continuous_wavelength_cycle + 1 - 1) % 6, by omega⟩
      (st.continuous_sample_buffer ⟨(st.continuous_wavelength_cycle + 1 - 1) % 6, by omega⟩
        ++ [qmean vs]) }

/-- The detected branch of sample_data (lines 1411-1513): stop the silence
timer, process up to min(3, total) valid cycles, record the detection
timestamp, bump the consecutive counter and set the lock at the
threshold. -/
def detectedBranch (st : SeerState) (now : ℚ) (vs : List ℚ) (r : DetectionResult) :
    SeerState × ℕ :=
  let st := { st with no_pattern_deadline := none, pattern_detection_active := false }
  let p := (r.all_valid_cycles.take (min 3 r.total_valid_cycles)).foldl
    (processOneCycle vs) (st, 0)
  let st := { p.1 with cycle_timestamps := p.1.cycle_timestamps ++ [now] }
  let cc := st.consecutive_cycles + 1
  ({ st with consecutive_cycles := cc,
             is_locked := if LOCK_THRESHOLD ≤ cc then true else st.is_locked },
   p.2)

/-- The undetected branch of sample_data (lines 1529-1543): reset the
consecutive counter and the lock, arm the 3 s silence timer when idle, and
run the gain controller once on the batch. -/
def undetectedBranch (st : SeerState) (now : ℚ) (vs : List ℚ) : SeerState × ℕ :=
  let st := { st with consecutive_cycles := 0, is_locked := false }
  let st := if st.pattern_detection_active then st
    else { st with no_pattern_deadline := some (now + 3),
                   pattern_detection_active := true }
  (auto_adjust_gain st vs (1/10) 1, 1)

/-- MainWindow.sample_data (lines 1375-1543) restricted to the
claim-relevant state, as a function of the acquired batch and the wall
clock time `now`.  The second component counts how many times
auto_adjust_gain was invoked during the call.

An empty batch returns immediately (line 1386).  Otherwise the batch mean
is appended to the round-robin continuous buffer and processing branches
on the detection outcome. -/
noncomputable def sample_data (st : SeerState) (now : ℚ) (vs : List ℚ) :
    SeerState × ℕ :=
  if vs.isEmpty then (st, 0)
  else
    match detect_cycle_in_batch vs with
    | none => (st, 0)
    | some r =>
      if r.detected then detectedBranch (contAppend st vs) now vs r
      else undetectedBranch (contAppend st vs) now vs

/-- The detected flag a batch produces (false when detection is never
reached). -/
noncomputable def detectedOf (vs : List ℚ) : Bool :=
  match detect_cycle_in_batch vs with
  | none => false
  | some r => r.detected

/-- Modelled from the spec: the single-shot GUI no_pattern_timer, absent
from src as it lives in the Qt library.  Per §9 of the spec it is "an
explicit deadline value compared against a monotonic clock": a tick at or
after the armed deadline fires show_no_pattern_detected (lines 2356-2361),
which raises the pattern-lost signal (the Bool returned here) and clears
pattern_detection_active so the next undetected batch re-arms; a tick
before the deadline does nothing. -/
def timerTick (st : SeerState) (now : ℚ) : SeerState × Bool :=
  match st.no_pattern_deadline with
  | none => (st, false)
  | some d =>
    if d ≤ now then
      ({ st with no_pattern_deadline := none, pattern_detection_active := false },
       true)
    else (st, false)

/-- Python l[-50:]. -/
def keepLast50 (l : List ℚ) : List ℚ := l.drop (l.length - 50)

/-- The continuous-buffer trim of update_graph_from_buffer (lines
1869-1871 and 1890-1892): over 100 entries, keep the last 50. -/
def trimContinuous (l : List ℚ) : List ℚ :=
  if 100 < l.length then keepLast50 l else l

/-- True when the last detection is within the last 2 s (lines 1841-1846). -/
def recentDetection (st : SeerState) (now : ℚ) : Bool :=
  match st.cycle_timestamps.getLast? with
  | some t => decide (now - t < 2)
  | none => false

/-- True when the last detection is more than 5 s old (line 1851). -/
def staleDetection (st : SeerState) (now : ℚ) : Bool :=
  match st.cycle_timestamps.getLast? with
  | some t => decide (5 < now - t)
  | none => false

/-- The state mutations of MainWindow.update_graph_from_buffer
(lines 1837-1892); the display output it also produces is not part of the
claim-relevant state.  With `now` the wall clock time: when the last
detection is older than 2 s the pattern buffers count as not recent, and
older than 5 s they are cleared outright; each wavelength's continuous
buffer is trimmed exactly on the branches where it is read. -/
def update_graph_from_buffer (st : SeerState) (now : ℚ) : SeerState :=
  let recent : Bool := recentDetection st now
  let stale : Bool := staleDetection st now
  let sb : Wavelength → List ℚ :=
    if !recent && stale then fun _ => [] else st.sample_buffer
  let cb : Wavelength → List ℚ := fun w =>
    if !recent && !(st.continuous_sample_buffer w).isEmpty then
      trimContinuous (st.continuous_sample_buffer w)
    else if !(sb w).isEmpty then st.continuous_sample_buffer w
    else if !(st.continuous_sample_buffer w).isEmpty then
      trimContinuous (st.continuous_sample_buffer w)
    else st.continuous_sample_buffer w
  { st with sample_buffer := sb, continuous_sample_buffer := cb }

/-! ### Concrete test data

A 60-sample 20 ms batch (so 0.1/3 ms per sample) carrying six two-sample
pulses of 0.3 V with one low sample between consecutive pulses: exactly
six clusters, hence exactly one six-pulse window, and that window is
valid.  Used to witness the detected paths of the pipeline. -/

def myBatch : List ℚ := [3/10, 3/10, 0, 3/10, 3/10, 0, 3/10, 3/10, 0, 3/10, 3/10, 0, 3/10, 3/10, 0, 3/10, 3/10, 0, 0, 0, 0, 0, 0, 0, 0, 0, 0, 0, 0, 0, 0, 0, 0, 0, 0, 0, 0, 0, 0, 0, 0, 0, 0, 0, 0, 0, 0, 0, 0, 0, 0, 0, 0, 0, 0, 0, 0, 0, 0, 0]

/-- The single valid candidate of myBatch: cluster centres 0.5, 3.5, …,
15.5 samples, i.e. times k/6 ms, widths 1/3 ms, spacings 1 ms. -/
def myCand : ValidCycle :=
  { start_idx := 0
    pulses := [1/6, 7/6, 13/6, 19/6, 25/6, 31/6]
    widths := [1/3, 1/3, 1/3, 1/3, 1/3, 1/3]
    clusters := [[0,1],[3,4],[6,7],[9,10],[12,13],[15,16]]
    voltages := [3/10, 3/10, 3/10, 3/10, 3/10, 3/10]
    sorted_pulse_times := [1/6, 7/6, 13/6, 19/6, 25/6, 31/6]
    sorted_pulse_widths := [1/3, 1/3, 1/3, 1/3, 1/3, 1/3]
    sorted_pulse_clusters := [[0,1],[3,4],[6,7],[9,10],[12,13],[15,16]]
    sorted_pulse_voltages := [3/10, 3/10, 3/10, 3/10, 3/10, 3/10] }

theorem pulse_clusters_myBatch :
    pulse_clusters myBatch = [[0,1],[3,4],[6,7],[9,10],[12,13],[15,16]] := by
  norm_num [pulse_clusters, clusterStep, List.enum, List.enumFrom, VOLTAGE_THRESHOLD, myBatch]

theorem validCyclesRaw_myBatch : validCyclesRaw myBatch = [myCand] := by
  rw [validCyclesRaw]
  rw [pulse_clusters_myBatch]
  norm_num [myBatch, cluster_center_time, cluster_width, cluster_voltage, actualSps,
    qmean, List.range, List.range.loop, windowValid, cycleDuration, spacingsOf,
    listMin, listMax, mkValidCycle, sortPulseData, List.insertionSort,
    List.orderedInsert, myCand, List.filterMap_cons, List.filterMap_nil]

theorem sortValidCycles_single (c : ValidCycle) : sortValidCycles [c] = [c] := by
  simp [sortValidCycles, List.insertionSort, List.orderedInsert]

/-- The detection result myBatch produces. -/
noncomputable def myResult : DetectionResult :=
  { detected := true
    score := cycleQuality myCand
    quality := cycleQuality myCand
    pulse_count := 6
    high_samples := (myBatch.filter fun v => decide (VOLTAGE_THRESHOLD < v)).length
    pulse_width_ms := qmean myCand.sorted_pulse_widths
    actual_sps := actualSps 60
    stat_mean := qmean myBatch
    stat_std := Real.sqrt ((qvar myBatch : ℚ) : ℝ)
    stat_min := listMin myBatch
    stat_max := listMax myBatch
    sorted_pulse_times := myCand.sorted_pulse_times
    sorted_pulse_widths := myCand.sorted_pulse_widths
    sorted_pulse_clusters := myCand.sorted_pulse_clusters
    sorted_pulse_voltages := myCand.sorted_pulse_voltages
    all_valid_cycles := [myCand]
    total_valid_cycles := 1 }

theorem detect_myBatch : detect_cycle_in_batch myBatch = some myResult := by
  have hlen : myBatch.length = 60 := by simp [myBatch]
  have hsort : sortValidCycles (validCyclesRaw myBatch) = [myCand] := by
    rw [validCyclesRaw_myBatch, sortValidCycles_single]
  have hround : pyRound (EXPECTED_CYCLE_DURATION_MS * (actualSps 60 / 1000)) = 12 := by
    norm_num [pyRound, EXPECTED_CYCLE_DURATION_MS, actualSps, round_eq]
  simp only [detect_cycle_in_batch, hlen, hsort]
  norm_num [myBatch, myResult, hround]

/-! ### Structural lemmas about the step functions -/

/-- auto_adjust_gain only ever writes the gain and the continuous buffer:
every other SeerState field is untouched. -/
theorem auto_adjust_gain_untouched (st : SeerState) (vs : List ℚ) (tl th : ℚ) :
    (auto_adjust_gain st vs tl th).sample_buffer = st.sample_buffer ∧
    (auto_adjust_gain st vs tl th).consecutive_cycles = st.consecutive_cycles ∧
    (auto_adjust_gain st vs tl th).is_locked = st.is_locked ∧
    (auto_adjust_gain st vs tl th).pattern_detection_active = st.pattern_detection_active ∧
    (auto_adjust_gain st vs tl th).no_pattern_deadline = st.no_pattern_deadline ∧
    (auto_adjust_gain st vs tl th).continuous_wavelength_cycle = st.continuous_wavelength_cycle ∧
    (auto_adjust_gain st vs tl th).wavelength_cycle_count = st.wavelength_cycle_count ∧
    (auto_adjust_gain st vs tl th).cycle_timestamps = st.cycle_timestamps := by
  unfold auto_adjust_gain
  simp only [apply_ite SeerState.sample_buffer, apply_ite SeerState.consecutive_cycles,
    apply_ite SeerState.is_locked, apply_ite SeerState.pattern_detection_active,
    apply_ite SeerState.no_pattern_deadline, apply_ite SeerState.continuous_wavelength_cycle,
    apply_ite SeerState.wavelength_cycle_count, apply_ite SeerState.cycle_timestamps]
  simp

/-- Cycle processing never touches the lock, timer, continuous-cycling or
timestamp fields. -/
theorem processOneCycle_untouched (vs : List ℚ) (p : SeerState × ℕ) (cd : ValidCycle) :
    (processOneCycle vs p cd).1.consecutive_cycles = p.1.consecutive_cycles ∧
    (processOneCycle vs p cd).1.is_locked = p.1.is_locked ∧
    (processOneCycle vs p cd).1.pattern_detection_active = p.1.pattern_detection_active ∧
    (processOneCycle vs p cd).1.no_pattern_deadline = p.1.no_pattern_deadline ∧
    (processOneCycle vs p cd).1.continuous_wavelength_cycle = p.1.continuous_wavelength_cycle ∧
    (processOneCycle vs p cd).1.cycle_timestamps = p.1.cycle_timestamps := by
  unfold processOneCycle
  split_ifs <;>
    simp [auto_adjust_gain_untouched]

/-- assignPulses only appends to a buffer. -/
theorem assignPulses_append (buf : Wavelength → List ℚ) (cd : ValidCycle) (g : ℚ)
    (w : Wavelength) : ∃ app, assignPulses buf cd g w = buf w ++ app := by
  unfold assignPulses
  split_ifs with h
  · exact ⟨[cd.sorted_pulse_voltages.getD w 0 / g], rfl⟩
  · exact ⟨[], (List.append_nil _).symm⟩

/-- Cycle processing only appends to a pattern-based buffer. -/
theorem processOneCycle_append (vs : List ℚ) (p : SeerState × ℕ) (cd : ValidCycle)
    (w : Wavelength) :
    ∃ app, (processOneCycle vs p cd).1.sample_buffer w = p.1.sample_buffer w ++ app := by
  rcases assignPulses_append p.1.sample_buffer cd p.1.gain w with ⟨app, happ⟩
  unfold processOneCycle
  split_ifs with h1 h2
  · obtain ⟨hsb, -⟩ := auto_adjust_gain_untouched _ vs (1/10) 1
    exact ⟨app, (congrFun hsb w).trans happ⟩
  · exact ⟨app, happ⟩
  · exact ⟨[], by simp⟩

/-- Folding cycle processing over a candidate list preserves the untouched
fields. -/
theorem foldProcess_untouched (vs : List ℚ) (cds : List ValidCycle) (p : SeerState × ℕ) :
    (cds.foldl (processOneCycle vs) p).1.consecutive_cycles = p.1.consecutive_cycles ∧
    (cds.foldl (processOneCycle vs) p).1.is_locked = p.1.is_locked ∧
    (cds.foldl (processOneCycle vs) p).1.pattern_detection_active = p.1.pattern_detection_active ∧
    (cds.foldl (processOneCycle vs) p).1.no_pattern_deadline = p.1.no_pattern_deadline ∧
    (cds.foldl (processOneCycle vs) p).1.continuous_wavelength_cycle = p.1.continuous_wavelength_cycle ∧
    (cds.foldl (processOneCycle vs) p).1.cycle_timestamps = p.1.cycle_timestamps := by
  induction cds generalizing p with
  | nil => simp
  | cons cd cds ih =>
    simp only [List.foldl_cons]
    rcases ih (processOneCycle vs p cd) with ⟨h1, h2, h3, h4, h5, h6⟩
    rcases processOneCycle_untouched vs p cd with ⟨g1, g2, g3, g4, g5, g6⟩
    exact ⟨h1.trans g1, h2.trans g2, h3.trans g3, h4.trans g4, h5.trans g5, h6.trans g6⟩

/-- Folding cycle processing only appends to pattern-based buffers. -/
theorem foldProcess_append (vs : List ℚ) (cds : List ValidCycle) (p : SeerState × ℕ)
    (w : Wavelength) :
    ∃ app, (cds.foldl (processOneCycle vs) p).1.sample_buffer w =
      p.1.sample_buffer w ++ app := by
  induction cds generalizing p with
  | nil => exact ⟨[], by simp⟩
  | cons cd cds ih =>
    simp only [List.foldl_cons]
    rcases ih (processOneCycle vs p cd) with ⟨app₂, h₂⟩
    rcases processOneCycle_append vs p cd w with ⟨app₁, h₁⟩
    exact ⟨app₁ ++ app₂, by rw [h₂, h₁, List.append_assoc]⟩

/-- The Bool condition under which one processed cycle triggers an
auto_adjust_gain invocation (lines 1438, 1454-1456). -/
def gainCallPred (cd : ValidCycle) : Bool :=
  decide (cd.sorted_pulse_times.length = 6 ∧ cd.sorted_pulse_clusters.length = 6) &&
    cd.sorted_pulse_voltages.any fun v => decide (|v| < 1/10)

/-- The invocation counter of the cycle-processing fold counts exactly the
cycles satisfying gainCallPred. -/
theorem foldProcess_calls (vs : List ℚ) (cds : List ValidCycle) (p : SeerState × ℕ) :
    (cds.foldl (processOneCycle vs) p).2 = p.2 + cds.countP gainCallPred := by
  induction cds generalizing p with
  | nil => simp
  | cons cd cds ih =>
    simp only [List.foldl_cons, List.countP_cons]
    rw [ih (processOneCycle vs p cd)]
    have : (processOneCycle vs p cd).2 = p.2 + if gainCallPred cd then 1 else 0 := by
      obtain ⟨st, calls⟩ := p
      unfold processOneCycle
      by_cases h1 : cd.sorted_pulse_times.length = 6 ∧ cd.sorted_pulse_clusters.length = 6
      · by_cases h2 : (cd.sorted_pulse_voltages.any fun v => decide (|v| < 1/10)) = true
        · simp [h1, h2, gainCallPred]
          try (split_ifs <;> simp)
        · simp [h1, h2, gainCallPred]
          try (split_ifs <;> simp)
      · simp [h1, gainCallPred]
    rw [this]
    split_ifs <;> omega

/-- A detection result is only produced for a non-empty batch. -/
theorem detect_ne_empty {vs : List ℚ} {r : DetectionResult}
    (hd : detect_cycle_in_batch vs = some r) : vs.isEmpty = false := by
  cases vs with
  | nil => simp [detect_cycle_in_batch] at hd
  | cons a l => simp



theorem sample_data_eq_detected (st : SeerState) (now : ℚ) (vs : List ℚ)
    (r : DetectionResult) (hd : detect_cycle_in_batch vs = some r)
    (hdet : r.detected = true) :
    sample_data st now vs = detectedBranch (contAppend st vs) now vs r := by
  unfold sample_data
  rw [detect_ne_empty hd]
  simp only [hd, hdet, Bool.false_eq_true, if_false, if_true]

theorem sample_data_eq_undetected (st : SeerState) (now : ℚ) (vs : List ℚ)
    (r : DetectionResult) (hd : detect_cycle_in_batch vs = some r)
    (hdet : r.detected = false) :
    sample_data st now vs = undetectedBranch (contAppend st vs) now vs := by
  unfold sample_data
  rw [detect_ne_empty hd]
  simp only [hd, hdet, Bool.false_eq_true, if_false]

theorem detectedBranch_fields (st : SeerState) (now : ℚ) (vs : List ℚ)
    (r : DetectionResult) :
    (detectedBranch st now vs r).1.consecutive_cycles = st.consecutive_cycles + 1 ∧
    (detectedBranch st now vs r).1.is_locked =
      (if LOCK_THRESHOLD ≤ st.consecutive_cycles + 1 then true else st.is_locked) ∧
    (detectedBranch st now vs r).1.no_pattern_deadline = none ∧
    (detectedBranch st now vs r).1.pattern_detection_active = false ∧
    (detectedBranch st now vs r).2 =
      (r.all_valid_cycles.take (min 3 r.total_valid_cycles)).countP gainCallPred ∧
    ∀ w, ∃ app, (detectedBranch st now vs r).1.sample_buffer w =
      st.sample_buffer w ++ app := by
  unfold detectedBranch
  obtain ⟨f1, f2, f3, f4, f5, f6⟩ := foldProcess_untouched vs
    (r.all_valid_cycles.take (min 3 r.total_valid_cycles))
    ({ st with no_pattern_deadline := none, pattern_detection_active := false }, 0)
  refine ⟨by simp [f1], by simp [f1, f2], by simp [f4], by simp [f3], ?_, ?_⟩
  · have := foldProcess_calls vs (r.all_valid_cycles.take (min 3 r.total_valid_cycles))
      ({ st with no_pattern_deadline := none, pattern_detection_active := false }, 0)
    simpa using this
  · intro w
    obtain ⟨app, happ⟩ := foldProcess_append vs
      (r.all_valid_cycles.take (min 3 r.total_valid_cycles))
      ({ st with no_pattern_deadline := none, pattern_detection_active := false }, 0) w
    exact ⟨app, happ⟩

theorem undetectedBranch_fields (st : SeerState) (now : ℚ) (vs : List ℚ) :
    (undetectedBranch st now vs).1.consecutive_cycles = 0 ∧
    (undetectedBranch st now vs).1.is_locked = false ∧
    (undetectedBranch st now vs).1.pattern_detection_active = true ∧
    (undetectedBranch st now vs).1.no_pattern_deadline =
      (if st.pattern_detection_active then st.no_pattern_deadline else some (now + 3)) ∧
    (undetectedBranch st now vs).1.sample_buffer = st.sample_buffer ∧
    (undetectedBranch st now vs).2 = 1 := by
  unfold undetectedBranch
  dsimp only
  by_cases hA : st.pattern_detection_active = true
  · simp only [if_pos hA]
    obtain ⟨g1, g2, g3, g4, g5, g6, g7, g8⟩ := auto_adjust_gain_untouched
      { st with consecutive_cycles := 0, is_locked := false } vs (1/10) 1
    exact ⟨g2.trans rfl, g3.trans rfl, g4.trans hA, g5.trans rfl, g1.trans rfl, trivial⟩
  · simp only [if_neg hA]
    obtain ⟨g1, g2, g3, g4, g5, g6, g7, g8⟩ := auto_adjust_gain_untouched
      { st with
          consecutive_cycles := 0
          is_locked := false
          no_pattern_deadline := some (now + 3)
          pattern_detection_active := true } vs (1/10) 1
    exact ⟨g2.trans rfl, g3.trans rfl, g4.trans rfl, g5.trans rfl, g1.trans rfl, trivial⟩

end PulseSeer

namespace PulseSeer

/-- Closed form of the gain field written by auto_adjust_gain. -/
theorem auto_adjust_gain_gain (st : SeerState) (vs : List ℚ) (tl th : ℚ) :
    (auto_adjust_gain st vs tl th).gain =
      if vs.isEmpty then st.gain
      else if vs.any fun v => decide (th < |v|) then
        (if 0 < gainIdx st.gain then gain_values.getD (gainIdx st.gain - 1) 1
         else st.gain)
      else if (vs.any fun v => decide (|v| < tl)) &&
          decide (listMax (vs.map fun v => |v|) ≤ th) then
        (if gainIdx st.gain < gain_values.length - 1 then
          gain_values.getD (gainIdx st.gain + 1) 1
         else st.gain)
      else st.gain := by
  simp only [auto_adjust_gain]
  split_ifs <;> rfl

/-- C3: auto-gain ladder policy, in priority order: any |v| > 1 V steps the
gain index down one rung (a no-op at the lowest rung, captured by the
truncated subtraction); otherwise some |v| < 0.1 V with batch maximum
|v| ≤ 1 V steps it up one rung (clamped at the highest rung); otherwise no
change; and the resulting gain stays in the ladder, so its index stays in
[0, 3]. -/
theorem C3_gain_step_policy (st : SeerState) (vs : List ℚ)
    (hg : st.gain ∈ gain_values) :
    ((∃ v ∈ vs, 1 < |v|) →
      gainIdx (auto_adjust_gain st vs (1/10) 1).gain = gainIdx st.gain - 1) ∧
    ((¬ ∃ v ∈ vs, 1 < |v|) → (∃ v ∈ vs, |v| < 1/10) →
      listMax (vs.map fun v => |v|) ≤ 1 →
      gainIdx (auto_adjust_gain st vs (1/10) 1).gain = min (gainIdx st.gain + 1) 3) ∧
    ((¬ ∃ v ∈ vs, 1 < |v|) →
      ¬ ((∃ v ∈ vs, |v| < 1/10) ∧ listMax (vs.map fun v => |v|) ≤ 1) →
      (auto_adjust_gain st vs (1/10) 1).gain = st.gain) ∧
    (auto_adjust_gain st vs (1/10) 1).gain ∈ gain_values ∧
    gainIdx (auto_adjust_gain st vs (1/10) 1).gain ≤ 3 := by
  simp only [gain_values, List.mem_cons, List.not_mem_nil, or_false] at hg
  have key : ((∃ v ∈ vs, 1 < |v|) →
      (auto_adjust_gain st vs (1/10) 1).gain =
        (if 0 < gainIdx st.gain then gain_values.getD (gainIdx st.gain - 1) 1
         else st.gain)) ∧
      ((¬ ∃ v ∈ vs, 1 < |v|) → (∃ v ∈ vs, |v| < 1/10) →
        listMax (vs.map fun v => |v|) ≤ 1 →
        (auto_adjust_gain st vs (1/10) 1).gain =
          (if gainIdx st.gain < gain_values.length - 1 then
            gain_values.getD (gainIdx st.gain + 1) 1
           else st.gain)) ∧
      ((¬ ∃ v ∈ vs, 1 < |v|) →
        ¬ ((∃ v ∈ vs, |v| < 1/10) ∧ listMax (vs.map fun v => |v|) ≤ 1) →
        (auto_adjust_gain st vs (1/10) 1).gain = st.gain) := by
    refine ⟨fun hA => ?_, fun hA hB1 hB2 => ?_, fun hA hB => ?_⟩
    · have hE : vs.isEmpty = false := by
        rcases hA with ⟨v, hv, -⟩; cases vs <;> simp_all
      have hAb : (vs.any fun v => decide ((1:ℚ) < |v|)) = true := by
        simpa using hA
      rw [auto_adjust_gain_gain, hE, hAb]
      simp
    · have hE : vs.isEmpty = false := by
        rcases hB1 with ⟨v, hv, -⟩; cases vs <;> simp_all
      have hAb : (vs.any fun v => decide ((1:ℚ) < |v|)) = false := by
        simpa using hA
      have hBb : ((vs.any fun v => decide (|v| < 1/10)) &&
          decide (listMax (vs.map fun v => |v|) ≤ 1)) = true := by
        simp only [Bool.and_eq_true, decide_eq_true_eq]
        exact ⟨by simpa using hB1, hB2⟩
      rw [auto_adjust_gain_gain, hE, hAb, hBb]
      simp
    · have hAb : (vs.any fun v => decide ((1:ℚ) < |v|)) = false := by
        simpa using hA
      have hBb : ((vs.any fun v => decide (|v| < 1/10)) &&
          decide (listMax (vs.map fun v => |v|) ≤ 1)) = false := by
        rcases Classical.em (∃ v ∈ vs, |v| < 1/10) with h1 | h1
        · have h2 : ¬ listMax (vs.map fun v => |v|) ≤ 1 := fun h2 => hB ⟨h1, h2⟩
          simp [h2]
        · simp only [Bool.and_eq_false_iff]
          left
          simpa using h1
      rw [auto_adjust_gain_gain, hAb, hBb]
      by_cases hE : vs.isEmpty <;> simp [hE]
  obtain ⟨k1, k2, k3⟩ := key
  refine ⟨?_, ?_, k3, ?_, ?_⟩
  · intro hA
    rw [k1 hA]
    rcases hg with h | h | h | h <;> rw [h] <;> norm_num [gainIdx, gain_values]
  · intro hA hB1 hB2
    rw [k2 hA hB1 hB2]
    rcases hg with h | h | h | h <;> rw [h] <;> norm_num [gainIdx, gain_values]
  · rcases Classical.em (∃ v ∈ vs, 1 < |v|) with hA | hA
    · rw [k1 hA]
      rcases hg with h | h | h | h <;> rw [h] <;> norm_num [gainIdx, gain_values]
    · rcases Classical.em ((∃ v ∈ vs, |v| < 1/10) ∧
          listMax (vs.map fun v => |v|) ≤ 1) with hB | hB
      · rw [k2 hA hB.1 hB.2]
        rcases hg with h | h | h | h <;> rw [h] <;> norm_num [gainIdx, gain_values]
      · rw [k3 hA hB]
        rcases hg with h | h | h | h <;> rw [h] <;> norm_num [gainIdx, gain_values]
  · rcases Classical.em (∃ v ∈ vs, 1 < |v|) with hA | hA
    · rw [k1 hA]
      rcases hg with h | h | h | h <;> rw [h] <;> norm_num [gainIdx, gain_values]
    · rcases Classical.em ((∃ v ∈ vs, |v| < 1/10) ∧
          listMax (vs.map fun v => |v|) ≤ 1) with hB | hB
      · rw [k2 hA hB.1 hB.2]
        rcases hg with h | h | h | h <;> rw [h] <;> norm_num [gainIdx, gain_values]
      · rw [k3 hA hB]
        rcases hg with h | h | h | h <;> rw [h] <;> norm_num [gainIdx, gain_values]

/-- A SeerState as initialised by MainWindow.__init__: empty buffers,
counter and lock cleared, timer idle, gain 1×. -/
def initState : SeerState :=
  { sample_buffer := fun _ => []
    continuous_sample_buffer := fun _ => []
    continuous_wavelength_cycle := 0
    wavelength_cycle_count := 0
    consecutive_cycles := 0
    is_locked := false
    pattern_detection_active := false
    no_pattern_deadline := none
    gain := 1
    cycle_timestamps := [] }

theorem C3_gain_step_policy_witness :
    ({ initState with gain := 4 } : SeerState).gain ∈ gain_values ∧
    (∃ v ∈ ([2] : List ℚ), 1 < |v|) ∧
    gainIdx (auto_adjust_gain { initState with gain := 4 } [2] (1/10) 1).gain =
      gainIdx ({ initState with gain := 4 } : SeerState).gain - 1 := by
  have hg : ({ initState with gain := 4 } : SeerState).gain ∈ gain_values := by
    norm_num [initState, gain_values]
  have hA : ∃ v ∈ ([2] : List ℚ), 1 < |v| := ⟨2, by norm_num⟩
  exact ⟨hg, hA, (C3_gain_step_policy _ _ hg).1 hA⟩

/-- A single gain step never reproduces the current gain value. -/
theorem gain_step_ne (g : ℚ) :
    (0 < gainIdx g → gain_values.getD (gainIdx g - 1) 1 ≠ g) ∧
    (gainIdx g < gain_values.length - 1 → gain_values.getD (gainIdx g + 1) 1 ≠ g) := by
  unfold gainIdx
  split_ifs <;> simp_all [gain_values]
  exact fun h => ‹¬g = 2› h.symm

/-- C8: the auto-gain controller clears every continuous history exactly
when it changes the gain, and never touches the pattern-based history. -/
theorem C8_gain_change_frame (st : SeerState) (vs : List ℚ) (tl th : ℚ) :
    (auto_adjust_gain st vs tl th).sample_buffer = st.sample_buffer ∧
    ((auto_adjust_gain st vs tl th).gain ≠ st.gain →
      (auto_adjust_gain st vs tl th).continuous_sample_buffer = fun _ => []) ∧
    ((auto_adjust_gain st vs tl th).gain = st.gain →
      (auto_adjust_gain st vs tl th).continuous_sample_buffer =
        st.continuous_sample_buffer) := by
  obtain ⟨hd, hu⟩ := gain_step_ne st.gain
  simp only [auto_adjust_gain]
  split_ifs with h1 h2 h3 h4 h5
  · exact ⟨rfl, fun h => absurd rfl h, fun _ => rfl⟩
  · exact ⟨rfl, fun _ => rfl, fun h => absurd h (hd h3)⟩
  · exact ⟨rfl, fun h => absurd rfl h, fun _ => rfl⟩
  · exact ⟨rfl, fun _ => rfl, fun h => absurd h (hu h5)⟩
  · exact ⟨rfl, fun h => absurd rfl h, fun _ => rfl⟩
  · exact ⟨rfl, fun h => absurd rfl h, fun _ => rfl⟩

theorem C8_gain_change_frame_witness :
    (auto_adjust_gain { initState with gain := 4 } [2] (1/10) 1).gain ≠
      ({ initState with gain := 4 } : SeerState).gain ∧
    (auto_adjust_gain { initState with gain := 4 } [2] (1/10) 1).continuous_sample_buffer
      = (fun _ => []) ∧
    (auto_adjust_gain { initState with gain := 4 } [2] (1/10) 1).sample_buffer =
      ({ initState with gain := 4 } : SeerState).sample_buffer := by
  have h := C8_gain_change_frame { initState with gain := 4 } [2] (1/10) 1
  have hg : (auto_adjust_gain { initState with gain := 4 } [2] (1/10) 1).gain = 2 := by
    rw [auto_adjust_gain_gain]
    norm_num [initState, gainIdx, gain_values, listMax]
  have hne : (auto_adjust_gain { initState with gain := 4 } [2] (1/10) 1).gain ≠
      ({ initState with gain := 4 } : SeerState).gain := by
    rw [hg]; norm_num [initState]
  exact ⟨hne, h.2.1 hne, h.1⟩

/-- The detection result of the all-noise one-sample batch [0]. -/
noncomputable def zeroResult : DetectionResult :=
  { detected := false, score := 0, quality := 0, pulse_count := 0,
    high_samples := 0, pulse_width_ms := 0, actual_sps := actualSps 1,
    stat_mean := qmean [0],
    stat_std := Real.sqrt ((qvar [0] : ℚ) : ℝ),
    stat_min := listMin [0], stat_max := listMax [0],
    sorted_pulse_times := [], sorted_pulse_widths := [],
    sorted_pulse_clusters := [], sorted_pulse_voltages := [],
    all_valid_cycles := [], total_valid_cycles := 0 }

theorem validCyclesRaw_zero : validCyclesRaw [0] = [] := by
  norm_num [validCyclesRaw, pulse_clusters, clusterStep, List.enum, List.enumFrom,
    VOLTAGE_THRESHOLD, List.range, List.range.loop, List.filterMap_nil]

theorem detect_zero : detect_cycle_in_batch [0] = some zeroResult := by
  have h2 : sortValidCycles (validCyclesRaw [0]) = [] := by
    rw [validCyclesRaw_zero]
    simp [sortValidCycles, List.insertionSort]
  have hround : pyRound (EXPECTED_CYCLE_DURATION_MS * (actualSps 1 / 1000)) = 0 := by
    norm_num [pyRound, EXPECTED_CYCLE_DURATION_MS, actualSps, round_eq]
  simp only [detect_cycle_in_batch, h2]
  norm_num [zeroResult, hround]

/-- C10: an empty acquisition batch makes the per-batch step a complete
no-op: the state is returned unchanged (no history append, no counter,
lock, timer or gain change) and the gain controller is not invoked. -/
theorem C10_empty_batch_noop (st : SeerState) (now : ℚ) :
    sample_data st now [] = (st, 0) := by
  simp [sample_data]

/-- C5: from UNLOCKED, the first detected batch leaves the lock unset with
counter 1, the second consecutive one sets LOCKED with counter 2; and any
undetected batch forces counter 0 and UNLOCKED from any state. -/
theorem C5_lock_transitions (st : SeerState) (now₁ now₂ : ℚ) (vs₁ vs₂ : List ℚ)
    (r₁ r₂ : DetectionResult)
    (h0c : st.consecutive_cycles = 0) (h0l : st.is_locked = false)
    (hd₁ : detect_cycle_in_batch vs₁ = some r₁) (ht₁ : r₁.detected = true)
    (hd₂ : detect_cycle_in_batch vs₂ = some r₂) (ht₂ : r₂.detected = true) :
    ((sample_data st now₁ vs₁).1.is_locked = false ∧
     (sample_data st now₁ vs₁).1.consecutive_cycles = 1) ∧
    ((sample_data (sample_data st now₁ vs₁).1 now₂ vs₂).1.is_locked = true ∧
     (sample_data (sample_data st now₁ vs₁).1 now₂ vs₂).1.consecutive_cycles = 2) ∧
    (∀ (st' : SeerState) (now' : ℚ) (vs' : List ℚ) (r' : DetectionResult),
      detect_cycle_in_batch vs' = some r' → r'.detected = false →
      (sample_data st' now' vs').1.consecutive_cycles = 0 ∧
      (sample_data st' now' vs').1.is_locked = false) := by
  have step1 := detectedBranch_fields (contAppend st vs₁) now₁ vs₁ r₁
  rw [sample_data_eq_detected st now₁ vs₁ r₁ hd₁ ht₁]
  have hc1 : (detectedBranch (contAppend st vs₁) now₁ vs₁ r₁).1.consecutive_cycles = 1 := by
    rw [step1.1]
    show st.consecutive_cycles + 1 = 1
    omega
  have hl1 : (detectedBranch (contAppend st vs₁) now₁ vs₁ r₁).1.is_locked = false := by
    rw [step1.2.1]
    show (if LOCK_THRESHOLD ≤ st.consecutive_cycles + 1 then true else st.is_locked) = false
    rw [h0c, h0l]
    norm_num [LOCK_THRESHOLD]
  refine ⟨⟨hl1, hc1⟩, ?_, ?_⟩
  · rw [sample_data_eq_detected _ now₂ vs₂ r₂ hd₂ ht₂]
    have step2 := detectedBranch_fields
      (contAppend (detectedBranch (contAppend st vs₁) now₁ vs₁ r₁).1 vs₂) now₂ vs₂ r₂
    constructor
    · rw [step2.2.1]
      show (if LOCK_THRESHOLD ≤
          (detectedBranch (contAppend st vs₁) now₁ vs₁ r₁).1.consecutive_cycles + 1
        then true else _) = true
      rw [hc1]
      norm_num [LOCK_THRESHOLD]
    · rw [step2.1]
      show (detectedBranch (contAppend st vs₁) now₁ vs₁ r₁).1.consecutive_cycles + 1 = 2
      rw [hc1]
  · intro st' now' vs' r' hd' hf'
    rw [sample_data_eq_undetected st' now' vs' r' hd' hf']
    have u := undetectedBranch_fields (contAppend st' vs') now' vs'
    exact ⟨u.1, u.2.1⟩

theorem C5_lock_transitions_witness :
    initState.consecutive_cycles = 0 ∧ initState.is_locked = false ∧
    (sample_data initState 0 myBatch).1.is_locked = false ∧
    (sample_data (sample_data initState 0 myBatch).1 0 myBatch).1.is_locked = true ∧
    (sample_data initState 0 [0]).1.consecutive_cycles = 0 ∧
    (sample_data initState 0 [0]).1.is_locked = false := by
  have h := C5_lock_transitions initState 0 0 myBatch myBatch myResult myResult
    rfl rfl detect_myBatch rfl detect_myBatch rfl
  have h2 := h.2.2 initState 0 [0] zeroResult detect_zero rfl
  exact ⟨rfl, rfl, h.1.1, h.2.1.1, h2.1, h2.2⟩

/-- C6: a batch with detected = false arms the 3 s silence deadline at
now + 3 exactly when no timer is armed, and leaves an armed deadline
untouched; a detected batch cancels the timer; a timer tick strictly
before the deadline does nothing, and a tick at or after it raises the
pattern-lost signal exactly once and disarms, so the next undetected batch
re-arms. -/
theorem C6_silence_timer (st : SeerState) (now : ℚ) (vs : List ℚ)
    (r : DetectionResult) (hd : detect_cycle_in_batch vs = some r) :
    (r.detected = false → st.pattern_detection_active = false →
      (sample_data st now vs).1.no_pattern_deadline = some (now + 3) ∧
      (sample_data st now vs).1.pattern_detection_active = true) ∧
    (r.detected = false → st.pattern_detection_active = true →
      (sample_data st now vs).1.no_pattern_deadline = st.no_pattern_deadline ∧
      (sample_data st now vs).1.pattern_detection_active = true) ∧
    (r.detected = true →
      (sample_data st now vs).1.no_pattern_deadline = none ∧
      (sample_data st now vs).1.pattern_detection_active = false) ∧
    (∀ d t, st.no_pattern_deadline = some d → t < d →
      timerTick st t = (st, false)) ∧
    (∀ d t, st.no_pattern_deadline = some d → d ≤ t →
      (timerTick st t).2 = true ∧
      (timerTick st t).1.no_pattern_deadline = none ∧
      (timerTick st t).1.pattern_detection_active = false) := by
  refine ⟨?_, ?_, ?_, ?_, ?_⟩
  · intro hf hA
    rw [sample_data_eq_undetected st now vs r hd hf]
    have u := undetectedBranch_fields (contAppend st vs) now vs
    refine ⟨?_, u.2.2.1⟩
    rw [u.2.2.2.1]
    show (if st.pattern_detection_active = true then _ else some (now + 3)) = _
    rw [hA]
    simp
  · intro hf hA
    rw [sample_data_eq_undetected st now vs r hd hf]
    have u := undetectedBranch_fields (contAppend st vs) now vs
    refine ⟨?_, u.2.2.1⟩
    rw [u.2.2.2.1]
    show (if st.pattern_detection_active = true then st.no_pattern_deadline else _) = _
    rw [hA]
    simp
  · intro ht
    rw [sample_data_eq_detected st now vs r hd ht]
    have d := detectedBranch_fields (contAppend st vs) now vs r
    exact ⟨d.2.2.1, d.2.2.2.1⟩
  · intro d t hdl hlt
    unfold timerTick
    rw [hdl]
    simp only [if_neg (by exact fun h => absurd h (not_le.mpr hlt))]
  · intro d t hdl hle
    unfold timerTick
    rw [hdl]
    simp only [if_pos hle]
    exact ⟨trivial, trivial, trivial⟩

theorem C6_silence_timer_witness :
    (sample_data initState 0 [0]).1.no_pattern_deadline = some 3 ∧
    (sample_data initState 0 [0]).1.pattern_detection_active = true ∧
    timerTick { initState with no_pattern_deadline := some 3 } 1 =
      ({ initState with no_pattern_deadline := some 3 }, false) ∧
    (timerTick { initState with no_pattern_deadline := some 3 } 3).2 = true ∧
    (timerTick { initState with no_pattern_deadline := some 3 } 3).1.pattern_detection_active
      = false ∧
    (sample_data initState 0 myBatch).1.no_pattern_deadline = none := by
  have h := C6_silence_timer initState 0 [0] zeroResult detect_zero
  have h2 := C6_silence_timer { initState with no_pattern_deadline := some 3 } 0 [0]
    zeroResult detect_zero
  have h3 := C6_silence_timer initState 0 myBatch myResult detect_myBatch
  obtain ⟨a1, a2⟩ := h.1 rfl rfl
  refine ⟨by rw [a1]; norm_num, a2, ?_, ?_, ?_, (h3.2.2.1 rfl).1⟩
  · exact h2.2.2.2.1 3 1 rfl (by norm_num)
  · exact (h2.2.2.2.2 3 3 rfl le_rfl).1
  · exact (h2.2.2.2.2 3 3 rfl le_rfl).2.2

/-- The amended C7: the gain controller runs exactly once per non-empty
undetected batch; on a detected batch it runs once per processed cycle
(at most 3) whose sorted pulse voltages contain some |v| < 0.1 V, and not
otherwise. -/
theorem C7_gain_invocations (st : SeerState) (now : ℚ) (vs : List ℚ)
    (r : DetectionResult) (hd : detect_cycle_in_batch vs = some r) :
    (r.detected = false → (sample_data st now vs).2 = 1) ∧
    (r.detected = true → (sample_data st now vs).2 =
      (r.all_valid_cycles.take (min 3 r.total_valid_cycles)).countP gainCallPred) := by
  constructor
  · intro hf
    rw [sample_data_eq_undetected st now vs r hd hf]
    exact (undetectedBranch_fields (contAppend st vs) now vs).2.2.2.2.2
  · intro ht
    rw [sample_data_eq_detected st now vs r hd ht]
    exact (detectedBranch_fields (contAppend st vs) now vs r).2.2.2.2.1

theorem C7_gain_invocations_witness :
    zeroResult.detected = false ∧ (sample_data initState 0 [0]).2 = 1 := by
  exact ⟨rfl, (C7_gain_invocations initState 0 [0] zeroResult detect_zero).1 rfl⟩

/-- C7 as stated is false: myBatch is processed (non-empty, detected) yet
the gain controller is invoked zero times, because the end-of-batch
invocation sits only on the undetected path and every pulse voltage of the
detected cycle is at least the 0.1 V threshold. -/
theorem C7_counterexample :
    detectedOf myBatch = true ∧ (sample_data initState 0 myBatch).2 = 0 := by
  constructor
  · simp [detectedOf, detect_myBatch]
    rfl
  · rw [sample_data_eq_detected initState 0 myBatch myResult detect_myBatch rfl]
    rw [(detectedBranch_fields (contAppend initState myBatch) 0 myBatch myResult).2.2.2.2.1]
    show (myResult.all_valid_cycles.take (min 3 myResult.total_valid_cycles)).countP
      gainCallPred = 0
    have : myResult.all_valid_cycles.take (min 3 myResult.total_valid_cycles) = [myCand] := rfl
    rw [this]
    have hp : gainCallPred myCand = false := by
      have habs : |(3:ℚ)/10| = 3/10 := abs_of_pos (by norm_num)
      norm_num [gainCallPred, myCand, habs]
    simp [hp]

/-- Pattern-history effect of one myBatch step: every wavelength's pattern
buffer grows by exactly one entry. -/
theorem sample_data_myBatch_len (st : SeerState) (now : ℚ) (w : Wavelength) :
    ((sample_data st now myBatch).1.sample_buffer w).length =
      (st.sample_buffer w).length + 1 := by
  rw [sample_data_eq_detected st now myBatch myResult detect_myBatch rfl]
  show ((detectedBranch (contAppend st myBatch) now myBatch myResult).1.sample_buffer w).length = _
  unfold detectedBranch
  have hTake : myResult.all_valid_cycles.take (min 3 myResult.total_valid_cycles) = [myCand] := rfl
  rw [hTake]
  simp only [List.foldl_cons, List.foldl_nil]
  unfold processOneCycle
  dsimp only
  rw [if_pos (⟨rfl, rfl⟩ : myCand.sorted_pulse_times.length = 6 ∧
    myCand.sorted_pulse_clusters.length = 6)]
  rw [if_neg (by
    have habs : |(3:ℚ)/10| = 3/10 := abs_of_pos (by norm_num)
    norm_num [myCand, habs])]
  show (assignPulses (contAppend st myBatch).sample_buffer myCand
    (contAppend st myBatch).gain w).length = _
  unfold assignPulses
  rw [if_pos ?_]
  · show ((contAppend st myBatch).sample_buffer w ++ [_]).length = _
    rw [List.length_append]
    rfl
  · show (w : ℕ) < min (min myCand.sorted_pulse_times.length
      myCand.sorted_pulse_clusters.length) myCand.sorted_pulse_voltages.length
    have : min (min myCand.sorted_pulse_times.length
        myCand.sorted_pulse_clusters.length) myCand.sorted_pulse_voltages.length = 6 := rfl
    rw [this]
    exact w.isLt

/-- C1 as stated is false: starting from the empty initial state, 101
consecutive detected batches drive the 700 nm pattern-based history to 101
entries, exceeding the claimed 100-entry cap, with nothing dropped. -/
theorem C1_counterexample :
    ((((fun s => (sample_data s 0 myBatch).1)^[101] initState).sample_buffer 0).length = 101) ∧
    100 < 101 := by
  have key : ∀ k : ℕ,
      ((((fun s => (sample_data s 0 myBatch).1)^[k] initState).sample_buffer 0).length = k) := by
    intro k
    induction k with
    | zero => simp [initState]
    | succ n ih =>
      rw [Function.iterate_succ_apply']
      rw [sample_data_myBatch_len]
      omega
  exact ⟨key 101, by norm_num⟩

/-- Amended C1: the pattern-based history has no length cap at all.  A
batch step only ever appends to it, and the graph-update step either
leaves a wavelength's pattern history unchanged or (when stale) clears it
to empty — there is no oldest-first truncation at 100 entries. -/
theorem C1_pattern_history_append_only (st : SeerState) (now : ℚ) (vs : List ℚ)
    (w : Wavelength) :
    (∃ app, (sample_data st now vs).1.sample_buffer w = st.sample_buffer w ++ app) ∧
    ((update_graph_from_buffer st now).sample_buffer w = st.sample_buffer w ∨
     (update_graph_from_buffer st now).sample_buffer w = []) := by
  constructor
  · by_cases hE : vs.isEmpty = true
    · refine ⟨[], ?_⟩
      unfold sample_data
      rw [hE]
      simp
    · have hE' : vs.isEmpty = false := by simpa using hE
      obtain ⟨r, hr⟩ : ∃ r, detect_cycle_in_batch vs = some r := by
        unfold detect_cycle_in_batch
        rw [hE']
        simp only [Bool.false_eq_true, if_false]
        split_ifs
        · exact ⟨_, rfl⟩
        · rcases hsort : sortValidCycles (validCyclesRaw vs) with _ | ⟨b, rest⟩ <;>
            simp only [hsort] <;> exact ⟨_, rfl⟩
      cases hdet : r.detected
      · refine ⟨[], ?_⟩
        rw [sample_data_eq_undetected st now vs r hr hdet]
        rw [(undetectedBranch_fields (contAppend st vs) now vs).2.2.2.2.1]
        simp [contAppend]
      · rw [sample_data_eq_detected st now vs r hr hdet]
        exact (detectedBranch_fields (contAppend st vs) now vs r).2.2.2.2.2 w
  · simp only [update_graph_from_buffer]
    by_cases h : (!recentDetection st now && staleDetection st now) = true
    · right
      show (if !recentDetection st now && staleDetection st now then
        (fun _ => []) else st.sample_buffer) w = []
      rw [if_pos h]
    · left
      show (if !recentDetection st now && staleDetection st now then
        (fun _ => []) else st.sample_buffer) w = st.sample_buffer w
      rw [if_neg h]

/-- C2 as stated is false at the empty batch: the detection routine
computes np.min/np.max of the whole batch up front, which raises on an
empty array (modelled by none), and the caller short-circuits the empty
batch before detection, so no DetectionResult is ever produced for it. -/
theorem C2_counterexample : detect_cycle_in_batch [] = none := by
  simp [detect_cycle_in_batch]

/-- Amended C2: for every non-empty batch — all-noise and
no-valid-candidate ones included — detection returns a well-formed
DetectionResult carrying the whole-batch mean, standard deviation, minimum
and maximum, with detected = false whenever no valid candidate exists. -/
theorem C2_detection_total (vs : List ℚ) (h : vs ≠ []) :
    ∃ r, detect_cycle_in_batch vs = some r ∧
      (validCyclesRaw vs = [] → r.detected = false) ∧
      r.stat_mean = qmean vs ∧
      r.stat_std = Real.sqrt ((qvar vs : ℚ) : ℝ) ∧
      r.stat_min = listMin vs ∧
      r.stat_max = listMax vs := by
  have hE : vs.isEmpty = false := by
    cases vs
    · exact absurd rfl h
    · rfl
  unfold detect_cycle_in_batch
  rw [hE]
  simp only [Bool.false_eq_true, if_false]
  split_ifs
  · exact ⟨_, rfl, fun _ => rfl, rfl, rfl, rfl, rfl⟩
  · rcases hsort : sortValidCycles (validCyclesRaw vs) with _ | ⟨b, rest⟩ <;>
      simp only [hsort]
    · exact ⟨_, rfl, fun _ => rfl, rfl, rfl, rfl, rfl⟩
    · refine ⟨_, rfl, fun hraw => ?_, rfl, rfl, rfl, rfl⟩
      rw [hraw] at hsort
      simp [sortValidCycles, List.insertionSort] at hsort
  
theorem C2_detection_total_witness :
    (([0] : List ℚ) ≠ []) ∧
    ∃ r, detect_cycle_in_batch [0] = some r ∧
      (validCyclesRaw [0] = [] → r.detected = false) ∧
      r.stat_mean = qmean [0] ∧
      r.stat_std = Real.sqrt ((qvar [0] : ℚ) : ℝ) ∧
      r.stat_min = listMin [0] ∧
      r.stat_max = listMax [0] :=
  ⟨by simp, C2_detection_total [0] (by simp)⟩

/-- The quality formula exactly as the claim words it, with the 3.9 ms
duration target. -/
noncomputable def specQuality39 (c : ValidCycle) : ℝ :=
  max 0 (1 - ((|((cycleDuration c.pulses c.widths : ℚ) : ℝ) - 39/10| / (39/10)) +
    (|((qmean c.widths : ℚ) : ℝ) - 24/100| / (24/100)) +
    (1 - max 0 (1 - Real.sqrt ((qvar (spacingsOf c.pulses) : ℚ) : ℝ) /
      ((qmean (spacingsOf c.pulses) : ℚ) : ℝ)))) / 3)

/-- The claim's quality formula with the duration target the code actually
uses, 1000/256 = 3.90625 ms. -/
noncomputable def specQualityAmended (c : ValidCycle) : ℝ :=
  max 0 (1 - ((|((cycleDuration c.pulses c.widths : ℚ) : ℝ) - 1000/256| / (1000/256)) +
    (|((qmean c.widths : ℚ) : ℝ) - 24/100| / (24/100)) +
    (1 - max 0 (1 - Real.sqrt ((qvar (spacingsOf c.pulses) : ℚ) : ℝ) /
      ((qmean (spacingsOf c.pulses) : ℚ) : ℝ)))) / 3)

theorem foldl_min_le (l : List ℚ) : ∀ a x : ℚ, (x ∈ l ∨ x = a) →
    l.foldl min a ≤ x := by
  induction l with
  | nil =>
    intro a x hx
    rcases hx with h | h
    · simp at h
    · simp [h]
  | cons b bs ih =>
    intro a x hx
    simp only [List.foldl_cons]
    rcases hx with h | h
    · rcases List.mem_cons.mp h with h | h
      · exact le_trans (ih (min a b) (min a b) (Or.inr rfl)) (by simp [h])
      · exact ih _ _ (Or.inl h)
    · exact le_trans (ih (min a b) (min a b) (Or.inr rfl)) (by simp [h])

theorem listMin_le_mem (l : List ℚ) (x : ℚ) (hx : x ∈ l) : listMin l ≤ x := by
  cases l with
  | nil => simp at hx
  | cons a as =>
    rcases List.mem_cons.mp hx with h | h
    · exact foldl_min_le as a x (Or.inr h)
    · exact foldl_min_le as a x (Or.inl h)

theorem qmean_pos (l : List ℚ) (hne : l ≠ []) (hpos : ∀ x ∈ l, 0 < x) :
    0 < qmean l := by
  unfold qmean
  apply div_pos (List.sum_pos l hpos hne)
  exact_mod_cast List.length_pos.mpr hne

/-- A valid window has a positive mean spacing, so the code's guard on
avg_spacing is live and its quality expression coincides with the spec's
guard-free formula (with the code's 1000/256 target). -/
theorem windowQuality_eq_spec (p wd : List ℚ) (hv : windowValid p wd) :
    windowQuality p wd =
      max 0 (1 - ((|((cycleDuration p wd : ℚ) : ℝ) - 1000/256| / (1000/256)) +
        (|((qmean wd : ℚ) : ℝ) - 24/100| / (24/100)) +
        (1 - max 0 (1 - Real.sqrt ((qvar (spacingsOf p) : ℚ) : ℝ) /
          ((qmean (spacingsOf p) : ℚ) : ℝ)))) / 3) := by
  have hlen : p.length = 6 := hv.2.2.2
  have hne : spacingsOf p ≠ [] := by
    have h5 : (spacingsOf p).length = 5 := by
      simp [spacingsOf, hlen]
    intro hcon
    rw [hcon] at h5
    simp at h5
  have hmin : 1/10 ≤ listMin (spacingsOf p) := hv.2.2.1.1
  have hμ : 0 < qmean (spacingsOf p) := by
    apply qmean_pos _ hne
    intro x hx
    have := listMin_le_mem _ x hx
    linarith
  unfold windowQuality
  rw [if_pos hμ]
  norm_num [EXPECTED_CYCLE_DURATION_MS]

/-- Amended C4: every candidate stored by the search passed the validity
checks (invalid windows are dropped unscored), and its quality score is
max(0, 1 − (duration_error + width_error + (1 − spacing_consistency))/3)
with the duration target 1000/256 ms = 3.90625 ms (not 3.9 ms). -/
theorem C4_quality_formula (vs : List ℚ) (c : ValidCycle)
    (hc : c ∈ validCyclesRaw vs) :
    windowValid c.pulses c.widths ∧ cycleQuality c = specQualityAmended c := by
  unfold validCyclesRaw at hc
  simp only [List.mem_filterMap] at hc
  obtain ⟨s, hs, hif⟩ := hc
  split_ifs at hif with hv
  · rw [Option.some.injEq] at hif
    subst hif
    exact ⟨hv, windowQuality_eq_spec _ _ hv⟩

theorem C4_quality_formula_witness :
    myCand ∈ validCyclesRaw myBatch ∧
    windowValid myCand.pulses myCand.widths ∧
    cycleQuality myCand = specQualityAmended myCand := by
  have hm : myCand ∈ validCyclesRaw myBatch := by
    rw [validCyclesRaw_myBatch]
    exact List.mem_singleton.mpr rfl
  have h := C4_quality_formula myBatch myCand hm
  exact ⟨hm, h.1, h.2⟩

/-- C4 as stated is false: for the valid candidate of myBatch (span
16/3 ms, mean width 1/3 ms, equal spacings) the code's quality differs
from the claim's formula built on the 3.9 ms target, because the code
normalises the duration error by 1000/256 = 3.90625 ms. -/
theorem C4_counterexample :
    myCand ∈ validCyclesRaw myBatch ∧ cycleQuality myCand ≠ specQuality39 myCand := by
  refine ⟨by rw [validCyclesRaw_myBatch]; exact List.mem_singleton.mpr rfl, ?_⟩
  have h1 : qmean (spacingsOf myCand.pulses) = 1 := by
    norm_num [myCand, spacingsOf, qmean]
  have h2 : qvar (spacingsOf myCand.pulses) = 0 := by
    norm_num [myCand, spacingsOf, qvar, qmean]
  have h3 : cycleDuration myCand.pulses myCand.widths = 16/3 := by
    norm_num [myCand, cycleDuration, qmean]
  have h4 : qmean myCand.widths = (1:ℚ)/3 := by
    norm_num [myCand, qmean]
  unfold cycleQuality windowQuality specQuality39
  rw [h1, h2, h3, h4]
  rw [if_pos (by norm_num : (0:ℚ) < 1)]
  have hcast : ((EXPECTED_CYCLE_DURATION_MS : ℚ) : ℝ) = 1000/256 := by
    norm_num [EXPECTED_CYCLE_DURATION_MS]
  rw [hcast]
  rw [Rat.cast_zero, Real.sqrt_zero]
  norm_num
  rw [abs_of_pos (by norm_num), abs_of_pos (by norm_num), abs_of_pos (by norm_num)]
  norm_num

instance : IsTotal (ℚ × ℚ × List ℕ × ℚ) fun a b => a.1 ≤ b.1 :=
  ⟨fun a b => le_total a.1 b.1⟩

instance : IsTrans (ℚ × ℚ × List ℕ × ℚ) fun a b => a.1 ≤ b.1 :=
  ⟨fun _ _ _ h1 h2 => le_trans h1 h2⟩

theorem sortPulseData_sorted (l : List (ℚ × ℚ × List ℕ × ℚ)) :
    (sortPulseData l).Sorted fun a b => a.1 ≤ b.1 :=
  List.sorted_insertionSort _ _

/-- Every stored candidate's sorted pulse times are ascending. -/
theorem validCyclesRaw_sorted_times (vs : List ℚ) (c : ValidCycle)
    (hc : c ∈ validCyclesRaw vs) : c.sorted_pulse_times.Sorted (· ≤ ·) := by
  unfold validCyclesRaw at hc
  simp only [List.mem_filterMap] at hc
  obtain ⟨s, hs, hif⟩ := hc
  split_ifs at hif with hv
  rw [Option.some.injEq] at hif
  subst hif
  exact List.Pairwise.map _ (fun a b h => h) (sortPulseData_sorted _)

/-- Candidates are generated in strictly increasing window order. -/
theorem validCyclesRaw_pairwise (vs : List ℚ) :
    (validCyclesRaw vs).Pairwise fun a b => a.start_idx < b.start_idx := by
  unfold validCyclesRaw
  rw [List.pairwise_filterMap]
  apply List.Pairwise.imp ?_ (List.pairwise_lt_range _)
  intro a b hab x hx y hy
  split_ifs at hx with h1
  · split_ifs at hy with h2
    · simp only [Option.mem_def, Option.some.injEq] at hx hy
      subst hx
      subst hy
      exact hab
    · simp at hy
  · simp at hx

/-- Head of the stable descending insertion sort: a maximal-quality
element, and the earliest-offset one among equal qualities. -/
theorem sort_head_best (l : List ValidCycle)
    (hp : l.Pairwise fun a b => a.start_idx < b.start_idx) :
    ∀ c, (sortValidCycles l).head? = some c →
      c ∈ l ∧ (∀ x ∈ l, cycleQuality x ≤ cycleQuality c) ∧
      (∀ x ∈ l, cycleQuality x = cycleQuality c → c.start_idx ≤ x.start_idx) := by
  induction l with
  | nil =>
    intro c hc
    simp [sortValidCycles, List.insertionSort] at hc
  | cons a l ih =>
    intro c hc
    have heq : sortValidCycles (a :: l) = List.orderedInsert
        (fun x y => cycleQuality y ≤ cycleQuality x) a (sortValidCycles l) := rfl
    rw [heq] at hc
    have hpa := (List.pairwise_cons.mp hp).1
    have hpl := (List.pairwise_cons.mp hp).2
    rcases hsl : sortValidCycles l with _ | ⟨b, t⟩
    · rw [hsl] at hc
      simp only [List.orderedInsert, List.head?_cons, Option.some.injEq] at hc
      subst hc
      have hl : l = [] := by
        have hperm : (sortValidCycles l).Perm l :=
          List.perm_insertionSort (fun x y => cycleQuality y ≤ cycleQuality x) l
      
        rw [hsl] at hperm
        exact hperm.symm.eq_nil
      subst hl
      refine ⟨List.mem_singleton.mpr rfl, ?_, ?_⟩
      · intro x hx
        rw [List.mem_singleton.mp hx]
      · intro x hx _
        rw [List.mem_singleton.mp hx]
    · rw [hsl] at hc
      obtain ⟨hb_mem, hb_max, hb_tie⟩ := ih hpl b (by rw [hsl]; rfl)
      by_cases hr : cycleQuality b ≤ cycleQuality a
      · rw [List.orderedInsert, if_pos hr] at hc
        simp only [List.head?_cons, Option.some.injEq] at hc
        subst hc
        refine ⟨List.mem_cons_self _ _, ?_, ?_⟩
        · intro x hx
          rcases List.mem_cons.mp hx with h | h
          · rw [h]
          · exact le_trans (hb_max x h) hr
        · intro x hx _
          rcases List.mem_cons.mp hx with h | h
          · rw [h]
          · exact le_of_lt (hpa x h)
      · rw [List.orderedInsert, if_neg hr] at hc
        push_neg at hr
        simp only [List.head?_cons, Option.some.injEq] at hc
        subst hc
        refine ⟨List.mem_cons_of_mem _ hb_mem, ?_, ?_⟩
        · intro x hx
          rcases List.mem_cons.mp hx with h | h
          · rw [h]; exact le_of_lt hr
          · exact hb_max x h
        · intro x hx hq
          rcases List.mem_cons.mp hx with h | h
          · rw [h] at hq
            exact absurd hq (ne_of_lt hr)
          · exact hb_tie x h hq

/-- A detected result exposes the head of the quality-sorted candidate
list as its primary pulse fields. -/
theorem detect_detected_shape (vs : List ℚ) (r : DetectionResult)
    (hd : detect_cycle_in_batch vs = some r) (hdet : r.detected = true) :
    ∃ best rest, sortValidCycles (validCyclesRaw vs) = best :: rest ∧
      r.all_valid_cycles = best :: rest ∧
      r.sorted_pulse_times = best.sorted_pulse_times ∧
      r.sorted_pulse_widths = best.sorted_pulse_widths ∧
      r.sorted_pulse_voltages = best.sorted_pulse_voltages ∧
      r.total_valid_cycles = (best :: rest).length := by
  have hE : vs.isEmpty = false := detect_ne_empty hd
  unfold detect_cycle_in_batch at hd
  rw [hE] at hd
  simp only [Bool.false_eq_true, if_false] at hd
  split_ifs at hd with hn
  · rw [Option.some.injEq] at hd
    subst hd
    simp at hdet
  · rcases hs : sortValidCycles (validCyclesRaw vs) with _ | ⟨best, rest⟩ <;>
      rw [hs] at hd
    · simp only [Option.some.injEq] at hd
      subst hd
      simp at hdet
    · simp only [Option.some.injEq] at hd
      subst hd
      exact ⟨best, rest, rfl, rfl, rfl, rfl, rfl, rfl⟩

/-- C9: a detected batch promotes exactly one candidate — the head of the
stable quality-descending sort of all valid candidates: it has maximal
quality, the least starting offset among equal-quality candidates, its
(time, width, voltage) triples fill the result's primary sorted fields,
and its pulse times are ascending. -/
theorem C9_best_candidate_selection (vs : List ℚ) (r : DetectionResult)
    (hd : detect_cycle_in_batch vs = some r) (hdet : r.detected = true) :
    ∃ c, r.all_valid_cycles.head? = some c ∧ c ∈ validCyclesRaw vs ∧
      (∀ x ∈ validCyclesRaw vs, cycleQuality x ≤ cycleQuality c) ∧
      (∀ x ∈ validCyclesRaw vs, cycleQuality x = cycleQuality c →
        c.start_idx ≤ x.start_idx) ∧
      r.sorted_pulse_times = c.sorted_pulse_times ∧
      r.sorted_pulse_widths = c.sorted_pulse_widths ∧
      r.sorted_pulse_voltages = c.sorted_pulse_voltages ∧
      c.sorted_pulse_times.Sorted (· ≤ ·) := by
  obtain ⟨best, rest, hs, hall, ht, hw, hv, -⟩ := detect_detected_shape vs r hd hdet
  obtain ⟨hmem, hmax, htie⟩ := sort_head_best (validCyclesRaw vs)
    (validCyclesRaw_pairwise vs) best (by rw [hs]; rfl)
  exact ⟨best, by rw [hall]; rfl, hmem, hmax, htie, ht, hw, hv,
    validCyclesRaw_sorted_times vs best hmem⟩

theorem C9_best_candidate_selection_witness :
    ∃ c, myResult.all_valid_cycles.head? = some c ∧ c ∈ validCyclesRaw myBatch ∧
      (∀ x ∈ validCyclesRaw myBatch, cycleQuality x ≤ cycleQuality c) ∧
      (∀ x ∈ validCyclesRaw myBatch, cycleQuality x = cycleQuality c →
        c.start_idx ≤ x.start_idx) ∧
      myResult.sorted_pulse_times = c.sorted_pulse_times ∧
      myResult.sorted_pulse_widths = c.sorted_pulse_widths ∧
      myResult.sorted_pulse_voltages = c.sorted_pulse_voltages ∧
      c.sorted_pulse_times.Sorted (· ≤ ·) :=
  C9_best_candidate_selection myBatch myResult detect_myBatch rfl

end PulseSeer
